import Mathlib

/-!
Shallow embedding of the client-side job tracker / poller of the social_os
backend (src/content_creater-main/src/services/api/openaiService.ts,
component `AppContent`): the video-status poll cycle `pollVideoStatuses`,
the scheduled-post scan `checkScheduledPosts`, and the publish flow
`publishPost` / `deletePost`.

External collaborators (the `/api/ai/media/video/status` and
`/api/ai/media/video/fetch` endpoints, `publishingService`, the posts CRUD
endpoints) are modelled as oracles supplied through environment records;
the network requests the tracker issues are recorded in an explicit call
trace.  JavaScript truthiness tests on optional strings are translated
explicitly (absent or empty means falsy).
-/

namespace SocialOS

/-- Error payload inside a video job handle (`videoOperation.error`). -/
structure VideoJobError where
  message : String
  deriving DecidableEq, Repr

/-- Video job handle (`videoOperation` on a post): the provider's job id and
last-known status/progress/error, as delivered by the status endpoint. -/
structure VideoOp where
  id : String
  status : String
  progress : Option Nat := none
  error : Option VideoJobError := none
  deriving DecidableEq, Repr

/-- The fields of `Post` that the tracker reads or writes.  `scheduledAt` is
the scheduled timestamp (absent when the post is not scheduled). -/
structure Post where
  id : String
  topic : String
  status : String
  scheduledAt : Option Int := none
  isGeneratingVideo : Bool := false
  generatedVideoUrl : Option String := none
  videoGenerationStatus : Option String := none
  videoOperation : Option VideoOp := none
  deriving DecidableEq, Repr

/-- A user-visible notification emitted through `addNotification`. -/
structure Notification where
  kind : String
  title : String
  message : String
  postId : Option String := none
  deriving DecidableEq, Repr

/-- Network requests issued during one video poll cycle. -/
inductive NetCall where
  | statusReq (videoId : String)
  | fetchReq (videoId : String)
  | autoSave (url : String) (topic : String)
  deriving DecidableEq, Repr

/-- Whether a poll-cycle call is a status request. -/
def NetCall.isStatusReq : NetCall → Bool
  | .statusReq _ => true
  | _ => false

/-- Whether a poll-cycle call is an artifact fetch request. -/
def NetCall.isFetchReq : NetCall → Bool
  | .fetchReq _ => true
  | _ => false

/-- Outcome of one per-job status request: `rejected` covers a network
failure or a non-ok response (the promise in the `Promise.allSettled` batch
rejects); `resolved v` is a successful response carrying `data.data.video`. -/
inductive StatusResult where
  | rejected
  | resolved (video : VideoOp)
  deriving DecidableEq, Repr

/-- Oracle for the external endpoints used by one poll cycle.  `statusOf`
maps a job id to the outcome of its status request.  `fetchOf` maps a job id
to the outcome of the artifact-retrieval step (the `/video/fetch` request,
its JSON parse and the media-library auto-save collapsed into one fallible
step, as the spec's "fetch/download" step): `some url` on success, `none`
when the step fails. -/
structure PollEnv where
  statusOf : String → StatusResult
  fetchOf : String → Option String

/-- JS truthiness of an optional string: absent and empty are falsy. -/
def optStrTruthy : Option String → Bool
  | none => false
  | some s => !(s == "")

/-- `p.videoOperation?.id`. -/
def jobIdOpt (p : Post) : Option String := p.videoOperation.map VideoOp.id

/-- `p.videoOperation?.status`. -/
def opStatus (p : Post) : Option String := p.videoOperation.map VideoOp.status

/-- The filter at the head of `pollVideoStatuses`:
`p.isGeneratingVideo && p.videoOperation?.id &&
 p.videoOperation?.status !== 'completed' &&
 p.videoOperation?.status !== 'failed'`. -/
def videoScanFilter (p : Post) : Bool :=
  p.isGeneratingVideo
    && optStrTruthy (jobIdOpt p)
    && !(opStatus p == some "completed")
    && !(opStatus p == some "failed")

/-- The job id sent in the status request body (`post.videoOperation.id`;
the scan filter guarantees the handle is present). -/
def jobId (p : Post) : String := (jobIdOpt p).getD ""

/-- `updatedVideo.error?.message || 'Video generation failed'` (JS `||`:
an absent or empty message falls back to the default). -/
def failedErrMsg (v : VideoOp) : String :=
  match v.error with
  | some e => if e.message == "" then "Video generation failed" else e.message
  | none => "Video generation failed"

/-- The update applied to the post matching the result's post id, for a
resolved status response `v`: the three-way branch of the reconciliation
(`completed` with successful or failed fetch, `failed`, still processing). -/
def reconcileOk (env : PollEnv) (v : VideoOp) (y : Post) : Post :=
  if v.status == "completed" then
    match env.fetchOf v.id with
    | some url =>
        { y with generatedVideoUrl := some url, isGeneratingVideo := false,
                 videoGenerationStatus := some "Completed!", videoOperation := some v }
    | none =>
        { y with isGeneratingVideo := false, videoGenerationStatus := some "Failed." }
  else if v.status == "failed" then
    { y with isGeneratingVideo := false,
             videoGenerationStatus := some ("Failed: " ++ failedErrMsg v),
             videoOperation := some v }
  else
    { y with videoGenerationStatus :=
               some ("Processing... " ++ toString (v.progress.getD 0) ++ "%"),
             videoOperation := some v }

/-- Processing of one settled result against the current post collection:
a rejected status check is only logged (no state change); a resolved one
replaces the matching post (`setPosts(prev => prev.map(p => p.id === post.id
? upd(p) : p))`). -/
def applyResult (env : PollEnv) (cur : List Post) (pr : Post × StatusResult) : List Post :=
  match pr.2 with
  | .rejected => cur
  | .resolved v => cur.map (fun y => if y.id == pr.1.id then reconcileOk env v y else y)

/-- Notifications emitted while processing one settled result: exactly one
completion notification, keyed by the post id, in the completed-and-fetched
branch. -/
def resultNotifs (env : PollEnv) (post : Post) : StatusResult → List Notification
  | .rejected => []
  | .resolved v =>
    if v.status == "completed" then
      match env.fetchOf v.id with
      | some _ =>
          [{ kind := "video_complete", title := "Video Generation Complete",
             message := "Video for \"" ++ post.topic ++ "\" is ready!",
             postId := some post.id }]
      | none => []
    else []

/-- Network calls issued while processing one settled result: the artifact
fetch (issued whether or not it succeeds) and, on success, the
media-library auto-save.  No call is made for a `failed` or still-processing
status. -/
def resultCalls (env : PollEnv) (post : Post) : StatusResult → List NetCall
  | .rejected => []
  | .resolved v =>
    if v.status == "completed" then
      match env.fetchOf v.id with
      | some url => [.fetchReq v.id, .autoSave url post.topic]
      | none => [.fetchReq v.id]
    else []

/-- Result of one poll cycle: the reconciled post collection, the
notifications emitted, and the network calls issued. -/
structure PollOutcome where
  posts : List Post
  notifs : List Notification
  calls : List NetCall
  deriving DecidableEq, Repr

/-- One invocation of `pollVideoStatuses`: filter the collection, return
immediately when nothing is generating (idle fast-path, no network), else
issue one status request per selected post and process every settled
result; `Promise.allSettled` isolates per-job failures.  Updates are keyed
by post id and post ids are never modified, so a sequential fold over the
settled results is the net effect of the per-result functional updates. -/
def pollVideoStatuses (env : PollEnv) (posts : List Post) : PollOutcome :=
  let videoPosts := posts.filter videoScanFilter
  if videoPosts.isEmpty then { posts := posts, notifs := [], calls := [] }
  else
    let results := videoPosts.map (fun p => (p, env.statusOf (jobId p)))
    { posts := results.foldl (applyResult env) posts
      notifs := (results.map (fun pr => resultNotifs env pr.1 pr.2)).flatten
      calls := videoPosts.map (fun p => NetCall.statusReq (jobId p))
                 ++ (results.map (fun pr => resultCalls env pr.1 pr.2)).flatten }

/-- The filter of `checkScheduledPosts`:
`post.status === 'scheduled' && post.scheduledAt &&
 new Date(post.scheduledAt) <= now` (an absent timestamp is falsy). -/
def duePost (now : Int) (p : Post) : Bool :=
  p.status == "scheduled"
    && (match p.scheduledAt with
        | some t => decide (t ≤ now)
        | none => false)

/-- A per-platform publish result `{ platform, success, url?, error? }`. -/
structure PlatformResult where
  platform : String
  success : Bool
  url : Option String := none
  error : Option String := none
  deriving DecidableEq, Repr

/-- Result of `publishingService.validatePostForPublishing`:
`{ valid, errors? }`. -/
structure ValidationResult where
  valid : Bool
  errors : Option (List String) := none
  deriving DecidableEq, Repr

/-- Body of the archive request `POST /api/library`:
`JSON.stringify({ post, platformResults: results, workspaceId })`. -/
structure ArchiveBody where
  post : Post
  platformResults : List PlatformResult
  workspaceId : String
  deriving DecidableEq, Repr

/-- Collaborator interactions issued during the publish flow. -/
inductive PubCall where
  | platformPublish (postId : String)
  | archive (body : ArchiveBody)
  | deleteReq (postId : String) (workspaceId : String)
  deriving DecidableEq, Repr

/-- Oracles for the collaborators of the publish flow.

Modelled from the spec: `publishingService` (`validatePostForPublishing` and
the publish operation) lives outside this repository's sources; per the
spec's contract the validation yields `{ valid, errors? }` and the publish
operation either returns a list of per-platform results or throws
(`.error ()`).  `archiveRejects` models a transport-level rejection of the
archive request (`response.ok` is not inspected there); `deleteOk` models
the outcome of the `DELETE /api/posts/...` request; `loggedIn` models
`user && workspaceId` being available. -/
structure PublishEnv where
  validate : Post → ValidationResult
  platformPublish : Post → Except Unit (List PlatformResult)
  archiveRejects : Bool
  deleteOk : String → Bool
  loggedIn : Bool
  workspaceId : String

/-- `validation.errors?.join(', ') || 'Post validation failed'` (JS `||`:
an absent errors list or an empty joined string falls back to the default). -/
def joinedErrors (v : ValidationResult) : String :=
  match v.errors with
  | some es =>
      if String.intercalate ", " es == "" then "Post validation failed"
      else String.intercalate ", " es
  | none => "Post validation failed"

/-- `Posted to ${successCount}/${results.length} platforms`. -/
def successMessage (results : List PlatformResult) : String :=
  "Posted to " ++ toString (results.filter PlatformResult.success).length
    ++ "/" ++ toString results.length ++ " platforms"

/-- `deletePost`: remove the post from the local collection, then (when a
user and workspace are present) issue the DELETE request and notify; its own
errors are caught internally, so it never throws into the caller. -/
def deletePostM (env : PublishEnv) (posts : List Post) (postId : String) :
    List Post × List Notification × List PubCall :=
  let posts' := posts.filter (fun p => !(p.id == postId))
  if env.loggedIn then
    if env.deleteOk postId then
      (posts', [{ kind := "post_scheduled", title := "Post Deleted",
                  message := "Post has been removed." }],
       [.deleteReq postId env.workspaceId])
    else
      (posts', [{ kind := "error", title := "Delete Error",
                  message := "Failed to delete post from database" }],
       [.deleteReq postId env.workspaceId])
  else (posts', [], [])

/-- `publishPost`: validate, publish to the platforms, archive to the
library, remove the post, notify.  The whole body is wrapped in a
try/catch, so a throw from the publish operation or a rejected archive
request degrades to a "Publishing Error" notification without removing the
post; the function itself never throws.  Returns the updated collection,
the notifications emitted, and the collaborator calls issued. -/
def publishPost (env : PublishEnv) (posts : List Post) (post : Post) :
    List Post × List Notification × List PubCall :=
  let v := env.validate post
  if !v.valid then
    (posts, [{ kind := "error", title := "Validation Error",
               message := joinedErrors v }], [])
  else
    match env.platformPublish post with
    | .error _ =>
        (posts, [{ kind := "error", title := "Publishing Error",
                   message := "Failed to publish post to platforms" }],
         [.platformPublish post.id])
    | .ok results =>
        let archCalls : List PubCall :=
          if env.loggedIn then
            [.archive { post := post, platformResults := results,
                        workspaceId := env.workspaceId }]
          else []
        if env.loggedIn && env.archiveRejects then
          (posts, [{ kind := "error", title := "Publishing Error",
                     message := "Failed to publish post to platforms" }],
           .platformPublish post.id :: archCalls)
        else
          let d := deletePostM env posts post.id
          (d.1, d.2.1 ++ [{ kind := "post_published", title := "Post Published",
                            message := successMessage results,
                            postId := some post.id }],
           .platformPublish post.id :: (archCalls ++ d.2.2))

/-- Accumulated outcome of one scheduled-publish batch; `attempts` records,
in order, the id of every due post on which `publishPost` was invoked. -/
structure CycleOut where
  posts : List Post
  notifs : List Notification
  calls : List PubCall
  attempts : List String
  deriving DecidableEq, Repr

/-- One iteration of the `for (const post of readyToPublish)` loop:
`await publishPost(post)` (which cannot throw), accumulating its effects. -/
def publishStep (env : PublishEnv) (acc : CycleOut) (post : Post) : CycleOut :=
  let r := publishPost env acc.posts post
  { posts := r.1, notifs := acc.notifs ++ r.2.1, calls := acc.calls ++ r.2.2,
    attempts := acc.attempts ++ [post.id] }

/-- One invocation of `checkScheduledPosts` at time `now`: filter the
collection to the due posts and publish them sequentially. -/
def checkScheduledPosts (env : PublishEnv) (now : Int) (posts : List Post) :
    CycleOut :=
  (posts.filter (duePost now)).foldl (publishStep env)
    { posts := posts, notifs := [], calls := [], attempts := [] }

/-- The selection predicate exactly as claim C1 words it: `isGeneratingVideo`
is true and the job handle's status is neither `completed` nor `failed`
(an absent handle has no status, hence neither of the two). -/
def claimSelectedC1 (p : Post) : Bool :=
  p.isGeneratingVideo
    && !(opStatus p == some "completed")
    && !(opStatus p == some "failed")

/-- The amended selection predicate: `isGeneratingVideo` is true, the post
carries a job handle with a nonempty id, and the handle's status is neither
`completed` nor `failed`. -/
def selectedForVideoScan (p : Post) : Bool :=
  p.isGeneratingVideo
    && (match p.videoOperation with
        | some op => !(op.id == "") && !(op.status == "completed")
                       && !(op.status == "failed")
        | none => false)

/-- The due predicate as claim C6 words it: status is `scheduled` and there
is a `scheduledAt` timestamp at or before the scan time. -/
def claimDueC6 (now : Int) (p : Post) : Prop :=
  p.status = "scheduled" ∧ ∃ t, p.scheduledAt = some t ∧ t ≤ now

/-- The settled results processed by one non-idle poll cycle: one per
selected post, pairing the post with its status-request outcome. -/
def scanResults (env : PollEnv) (posts : List Post) : List (Post × StatusResult) :=
  (posts.filter videoScanFilter).map (fun p => (p, env.statusOf (jobId p)))

/-- The effect of one settled result on one element of the collection. -/
def stepOne (env : PollEnv) (pr : Post × StatusResult) (y : Post) : Post :=
  match pr.2 with
  | .rejected => y
  | .resolved v => if y.id == pr.1.id then reconcileOk env v y else y

/-- The cumulative effect of a result list on one element. -/
def foldSteps (env : PollEnv) (rs : List (Post × StatusResult)) (y : Post) : Post :=
  rs.foldl (fun x pr => stepOne env pr x) y

lemma reconcileOk_id (env : PollEnv) (v : VideoOp) (y : Post) :
    (reconcileOk env v y).id = y.id := by
  unfold reconcileOk
  split
  · split <;> rfl
  · split <;> rfl

lemma stepOne_id (env : PollEnv) (pr : Post × StatusResult) (y : Post) :
    (stepOne env pr y).id = y.id := by
  obtain ⟨q, res⟩ := pr
  cases res with
  | rejected => rfl
  | resolved v =>
      simp only [stepOne]
      split
      · exact reconcileOk_id env v y
      · rfl

lemma foldSteps_id (env : PollEnv) (rs : List (Post × StatusResult)) (y : Post) :
    (foldSteps env rs y).id = y.id := by
  induction rs generalizing y with
  | nil => rfl
  | cons pr rs ih =>
      show (foldSteps env rs (stepOne env pr y)).id = y.id
      rw [ih, stepOne_id]

lemma applyResult_eq_map (env : PollEnv) (cur : List Post)
    (pr : Post × StatusResult) :
    applyResult env cur pr = cur.map (stepOne env pr) := by
  obtain ⟨q, res⟩ := pr
  cases res with
  | rejected =>
      show cur = cur.map (fun y => y)
      exact (List.map_id' cur).symm
  | resolved v => rfl

lemma foldl_applyResult_eq_map (env : PollEnv)
    (rs : List (Post × StatusResult)) (cur : List Post) :
    rs.foldl (applyResult env) cur = cur.map (foldSteps env rs) := by
  induction rs generalizing cur with
  | nil =>
      show cur = cur.map (fun y => y)
      exact (List.map_id' cur).symm
  | cons pr rs ih =>
      show rs.foldl (applyResult env) (applyResult env cur pr)
             = cur.map (foldSteps env (pr :: rs))
      rw [applyResult_eq_map, ih, List.map_map]
      rfl

lemma foldSteps_frame (env : PollEnv) (rs : List (Post × StatusResult))
    (y : Post) (h : ∀ pr ∈ rs, pr.1.id ≠ y.id) :
    foldSteps env rs y = y := by
  induction rs with
  | nil => rfl
  | cons pr rs ih =>
      have h0 : stepOne env pr y = y := by
        obtain ⟨q, res⟩ := pr
        cases res with
        | rejected => rfl
        | resolved v =>
            have hne : (y.id == q.id) = false := by
              rw [beq_eq_false_iff_ne]
              exact fun e => h ⟨q, .resolved v⟩ (List.mem_cons_self _ _) e.symm
            simp [stepOne, hne]
      show foldSteps env rs (stepOne env pr y) = y
      rw [h0]
      exact ih (fun pr' h' => h pr' (List.mem_cons_of_mem _ h'))

lemma foldSteps_single (env : PollEnv) (r1 r2 : List (Post × StatusResult))
    (pr0 : Post × StatusResult) (y : Post)
    (h1 : ∀ pr ∈ r1, pr.1.id ≠ y.id) (h2 : ∀ pr ∈ r2, pr.1.id ≠ y.id) :
    foldSteps env (r1 ++ pr0 :: r2) y = stepOne env pr0 y := by
  unfold foldSteps
  rw [List.foldl_append]
  have hf1 : r1.foldl (fun x pr => stepOne env pr x) y = y := foldSteps_frame env r1 y h1
  rw [hf1, List.foldl_cons]
  refine foldSteps_frame env r2 _ ?_
  intro pr hpr
  rw [stepOne_id]
  exact h2 pr hpr

lemma id_ne_of_split {l l1 l2 : List Post} {p : Post}
    (hnd : (l.map Post.id).Nodup) (hl : l = l1 ++ p :: l2) :
    ∀ q ∈ l1 ++ l2, q.id ≠ p.id := by
  subst hl
  rw [List.map_append, List.map_cons, List.nodup_append] at hnd
  obtain ⟨_, h2, hdisj⟩ := hnd
  rw [List.nodup_cons] at h2
  intro q hq he
  rcases List.mem_append.1 hq with hq1 | hq2
  · refine hdisj (List.mem_map_of_mem Post.id hq1) ?_
    rw [he]
    exact List.mem_cons_self _ _
  · refine h2.1 ?_
    have : q.id ∈ l2.map Post.id := List.mem_map_of_mem Post.id hq2
    rwa [he] at this

lemma find?_map_id_eq {l : List Post} {p : Post} (F : Post → Post)
    (hF : ∀ y, (F y).id = y.id)
    (hnd : (l.map Post.id).Nodup) (hp : p ∈ l) :
    (l.map F).find? (fun q => q.id == p.id) = some (F p) := by
  induction l with
  | nil => cases hp
  | cons a l ih =>
      rw [List.map_cons, List.nodup_cons] at hnd
      rw [List.map_cons]
      by_cases ha : a.id = p.id
      · have hap : a = p := by
          rcases List.mem_cons.1 hp with rfl | hp'
          · rfl
          · exfalso
            refine hnd.1 ?_
            rw [ha]
            exact List.mem_map_of_mem Post.id hp'
        subst hap
        have hcond : ((F a).id == a.id) = true := by
          rw [hF]
          exact beq_self_eq_true _
        simp [List.find?, hcond]
      · have hp' : p ∈ l := by
          rcases List.mem_cons.1 hp with rfl | hp'
          · exact absurd rfl ha
          · exact hp'
        have hcond : ((F a).id == p.id) = false := by
          rw [hF, beq_eq_false_iff_ne]
          exact ha
        simp only [List.find?, hcond]
        exact ih hnd.2 hp'

lemma posts_eq_of_not_idle (env : PollEnv) (posts : List Post)
    (hne : (posts.filter videoScanFilter).isEmpty = false) :
    (pollVideoStatuses env posts).posts
      = posts.map (foldSteps env (scanResults env posts)) := by
  unfold pollVideoStatuses
  simp only [hne, Bool.false_eq_true, if_false]
  exact foldl_applyResult_eq_map env _ posts

lemma poll_idle (env : PollEnv) (posts : List Post)
    (he : (posts.filter videoScanFilter).isEmpty = true) :
    pollVideoStatuses env posts = { posts := posts, notifs := [], calls := [] } := by
  unfold pollVideoStatuses
  simp only [he, if_true]

lemma scanResults_split (env : PollEnv) (posts : List Post) (p : Post)
    (hnd : (posts.map Post.id).Nodup) (hp : p ∈ posts)
    (hsel : videoScanFilter p = true) :
    ∃ r1 r2, scanResults env posts = r1 ++ (p, env.statusOf (jobId p)) :: r2
      ∧ (∀ pr ∈ r1, pr.1.id ≠ p.id) ∧ (∀ pr ∈ r2, pr.1.id ≠ p.id) := by
  have hpv : p ∈ posts.filter videoScanFilter := List.mem_filter.2 ⟨hp, hsel⟩
  obtain ⟨l1, l2, hsplit⟩ := List.append_of_mem hpv
  have hsub : List.Sublist ((posts.filter videoScanFilter).map Post.id)
      (posts.map Post.id) :=
    (List.filter_sublist posts).map Post.id
  have hndv : ((posts.filter videoScanFilter).map Post.id).Nodup :=
    List.Nodup.sublist hsub hnd
  have hq := id_ne_of_split hndv hsplit
  refine ⟨l1.map (fun q => (q, env.statusOf (jobId q))),
          l2.map (fun q => (q, env.statusOf (jobId q))), ?_, ?_, ?_⟩
  · unfold scanResults
    rw [hsplit, List.map_append, List.map_cons]
  · intro pr hpr
    obtain ⟨q, hq1, rfl⟩ := List.mem_map.1 hpr
    exact hq q (List.mem_append_left _ hq1)
  · intro pr hpr
    obtain ⟨q, hq2, rfl⟩ := List.mem_map.1 hpr
    exact hq q (List.mem_append_right _ hq2)

lemma not_idle_of_mem (posts : List Post) (p : Post) (hp : p ∈ posts)
    (hsel : videoScanFilter p = true) :
    (posts.filter videoScanFilter).isEmpty = false := by
  have hpv : p ∈ posts.filter videoScanFilter := List.mem_filter.2 ⟨hp, hsel⟩
  cases hE : (posts.filter videoScanFilter).isEmpty with
  | false => rfl
  | true =>
      rw [List.isEmpty_iff] at hE
      rw [hE] at hpv
      cases hpv

lemma poll_find_selected (env : PollEnv) (posts : List Post) (p : Post)
    (hnd : (posts.map Post.id).Nodup) (hp : p ∈ posts)
    (hsel : videoScanFilter p = true) :
    (pollVideoStatuses env posts).posts.find? (fun q => q.id == p.id)
      = some (stepOne env (p, env.statusOf (jobId p)) p) := by
  rw [posts_eq_of_not_idle env posts (not_idle_of_mem posts p hp hsel)]
  rw [find?_map_id_eq (foldSteps env (scanResults env posts))
        (foldSteps_id env (scanResults env posts)) hnd hp]
  obtain ⟨r1, r2, hs, h1, h2⟩ := scanResults_split env posts p hnd hp hsel
  rw [hs]
  rw [foldSteps_single env r1 r2 _ p h1 h2]

lemma poll_find_unselected (env : PollEnv) (posts : List Post) (p : Post)
    (hnd : (posts.map Post.id).Nodup) (hp : p ∈ posts)
    (hsel : videoScanFilter p = false) :
    (pollVideoStatuses env posts).posts.find? (fun q => q.id == p.id) = some p := by
  cases hE : (posts.filter videoScanFilter).isEmpty with
  | true =>
      rw [poll_idle env posts hE]
      have h := find?_map_id_eq (fun y => y) (fun _ => rfl) hnd hp
      rwa [List.map_id'] at h
  | false =>
      rw [posts_eq_of_not_idle env posts hE]
      rw [find?_map_id_eq (foldSteps env (scanResults env posts))
            (foldSteps_id env (scanResults env posts)) hnd hp]
      have hframe : foldSteps env (scanResults env posts) p = p := by
        refine foldSteps_frame env _ p ?_
        intro pr hpr he
        obtain ⟨q, hq, rfl⟩ := List.mem_map.1 hpr
        have hq1 : q ∈ posts := (List.mem_filter.1 hq).1
        have hq2 : videoScanFilter q = true := (List.mem_filter.1 hq).2
        have hqp : q = p := List.inj_on_of_nodup_map hnd hq1 hp he
        rw [hqp, hsel] at hq2
        cases hq2
      rw [hframe]

lemma notifs_eq_of_not_idle (env : PollEnv) (posts : List Post)
    (hne : (posts.filter videoScanFilter).isEmpty = false) :
    (pollVideoStatuses env posts).notifs
      = ((scanResults env posts).map
          (fun pr => resultNotifs env pr.1 pr.2)).flatten := by
  unfold pollVideoStatuses scanResults
  simp only [hne, Bool.false_eq_true, if_false]

lemma calls_eq_of_not_idle (env : PollEnv) (posts : List Post)
    (hne : (posts.filter videoScanFilter).isEmpty = false) :
    (pollVideoStatuses env posts).calls
      = (posts.filter videoScanFilter).map (fun p => NetCall.statusReq (jobId p))
          ++ ((scanResults env posts).map
               (fun pr => resultCalls env pr.1 pr.2)).flatten := by
  unfold pollVideoStatuses scanResults
  simp only [hne, Bool.false_eq_true, if_false]

lemma stepOne_self (env : PollEnv) (p : Post) (v : VideoOp) :
    stepOne env (p, .resolved v) p = reconcileOk env v p := by
  simp [stepOne]

lemma poll_find_selected_resolved (env : PollEnv) (posts : List Post)
    (p : Post) (v : VideoOp)
    (hnd : (posts.map Post.id).Nodup) (hp : p ∈ posts)
    (hsel : videoScanFilter p = true)
    (hst : env.statusOf (jobId p) = .resolved v) :
    (pollVideoStatuses env posts).posts.find? (fun q => q.id == p.id)
      = some (reconcileOk env v p) := by
  rw [poll_find_selected env posts p hnd hp hsel, hst, stepOne_self]

lemma reconcileOk_completed_some (env : PollEnv) (v : VideoOp) (y : Post)
    (url : String) (hcomp : v.status = "completed")
    (hf : env.fetchOf v.id = some url) :
    reconcileOk env v y
      = { y with generatedVideoUrl := some url, isGeneratingVideo := false,
                 videoGenerationStatus := some "Completed!",
                 videoOperation := some v } := by
  unfold reconcileOk
  rw [hcomp]
  simp [hf]

lemma reconcileOk_completed_none (env : PollEnv) (v : VideoOp) (y : Post)
    (hcomp : v.status = "completed") (hf : env.fetchOf v.id = none) :
    reconcileOk env v y
      = { y with isGeneratingVideo := false,
                 videoGenerationStatus := some "Failed." } := by
  unfold reconcileOk
  rw [hcomp]
  simp [hf]

lemma reconcileOk_failed (env : PollEnv) (v : VideoOp) (y : Post)
    (hfail : v.status = "failed") :
    reconcileOk env v y
      = { y with isGeneratingVideo := false,
                 videoGenerationStatus := some ("Failed: " ++ failedErrMsg v),
                 videoOperation := some v } := by
  unfold reconcileOk
  rw [hfail]
  have h1 : (("failed" : String) == "completed") = false := rfl
  simp [h1]

lemma reconcileOk_processing (env : PollEnv) (v : VideoOp) (y : Post)
    (hncomp : ¬ v.status = "completed") (hnfail : ¬ v.status = "failed") :
    reconcileOk env v y
      = { y with videoGenerationStatus :=
                   some ("Processing... " ++ toString (v.progress.getD 0) ++ "%"),
                 videoOperation := some v } := by
  unfold reconcileOk
  have h1 : (v.status == "completed") = false := beq_eq_false_iff_ne.2 hncomp
  have h2 : (v.status == "failed") = false := beq_eq_false_iff_ne.2 hnfail
  simp [h1, h2]

lemma countP_notifs_other (env : PollEnv) (q : Post) (res : StatusResult)
    (pid : String) (hne : q.id ≠ pid) :
    (resultNotifs env q res).countP
      (fun n => n.kind == "video_complete" && n.postId == some pid) = 0 := by
  cases res with
  | rejected => rfl
  | resolved v =>
      simp only [resultNotifs]
      split
      · cases hf : env.fetchOf v.id with
        | none => rfl
        | some url =>
            have h2 : ((some q.id : Option String) == some pid) = false := by
              rw [beq_eq_false_iff_ne]
              intro h
              exact hne (Option.some_inj.1 h)
            simp [List.countP_cons, h2]
      · rfl

lemma countP_notifs_self (env : PollEnv) (p : Post) (v : VideoOp) (url : String)
    (hcomp : v.status = "completed") (hfetch : env.fetchOf v.id = some url) :
    (resultNotifs env p (.resolved v)).countP
      (fun n => n.kind == "video_complete" && n.postId == some p.id) = 1 := by
  simp only [resultNotifs]
  rw [hcomp]
  simp [hfetch, List.countP_cons]

lemma countP_flatten_zero {β : Type} (f : β → List Notification)
    (pred : Notification → Bool) (l : List β)
    (h : ∀ a ∈ l, (f a).countP pred = 0) :
    ((l.map f).flatten).countP pred = 0 := by
  induction l with
  | nil => rfl
  | cons a l ih =>
      rw [List.map_cons, List.flatten_cons, List.countP_append,
          h a (List.mem_cons_self _ _),
          ih (fun b hb => h b (List.mem_cons_of_mem _ hb))]

/-- Claim C2: for a post selected by the scan whose status response is
`completed` and whose artifact fetch succeeds with value `url`, the cycle
rewrites exactly that post to carry `generatedVideoUrl = url`,
`isGeneratingVideo = false` and the terminal success text, and emits
exactly one completion notification keyed by that post's id. -/
theorem C2_completed_fetch_success (env : PollEnv) (posts : List Post)
    (p : Post) (v : VideoOp) (url : String)
    (hnd : (posts.map Post.id).Nodup) (hp : p ∈ posts)
    (hsel : videoScanFilter p = true)
    (hst : env.statusOf (jobId p) = .resolved v)
    (hcomp : v.status = "completed")
    (hfetch : env.fetchOf v.id = some url) :
    (pollVideoStatuses env posts).posts.find? (fun q => q.id == p.id)
      = some { p with generatedVideoUrl := some url, isGeneratingVideo := false,
                      videoGenerationStatus := some "Completed!",
                      videoOperation := some v }
    ∧ (pollVideoStatuses env posts).notifs.countP
        (fun n => n.kind == "video_complete" && n.postId == some p.id) = 1 := by
  constructor
  · rw [poll_find_selected_resolved env posts p v hnd hp hsel hst,
        reconcileOk_completed_some env v p url hcomp hfetch]
  · rw [notifs_eq_of_not_idle env posts (not_idle_of_mem posts p hp hsel)]
    obtain ⟨r1, r2, hs, h1, h2⟩ := scanResults_split env posts p hnd hp hsel
    rw [hs, List.map_append, List.map_cons, List.flatten_append,
        List.flatten_cons, List.countP_append, List.countP_append]
    rw [countP_flatten_zero _ _ r1
          (fun pr hpr => countP_notifs_other env pr.1 pr.2 p.id (h1 pr hpr)),
        countP_flatten_zero _ _ r2
          (fun pr hpr => countP_notifs_other env pr.1 pr.2 p.id (h2 pr hpr))]
    show 0 + ((resultNotifs env p (env.statusOf (jobId p))).countP _ + 0) = 1
    rw [hst, countP_notifs_self env p v url hcomp hfetch]

/-- Claim C3: for a post selected by the scan whose status response is
`completed` but whose artifact fetch then fails, the cycle leaves the post
in a failed terminal state (`isGeneratingVideo = false`, status text
`Failed.`), and that state is excluded by the scan filter, hence by all
future scans. -/
theorem C3_completed_fetch_failure (env : PollEnv) (posts : List Post)
    (p : Post) (v : VideoOp)
    (hnd : (posts.map Post.id).Nodup) (hp : p ∈ posts)
    (hsel : videoScanFilter p = true)
    (hst : env.statusOf (jobId p) = .resolved v)
    (hcomp : v.status = "completed")
    (hfetch : env.fetchOf v.id = none) :
    (pollVideoStatuses env posts).posts.find? (fun q => q.id == p.id)
      = some { p with isGeneratingVideo := false,
                      videoGenerationStatus := some "Failed." }
    ∧ videoScanFilter { p with isGeneratingVideo := false,
                               videoGenerationStatus := some "Failed." } = false := by
  constructor
  · rw [poll_find_selected_resolved env posts p v hnd hp hsel hst,
        reconcileOk_completed_none env v p hcomp hfetch]
  · simp [videoScanFilter]

/-- Claim C4: for a post selected by the scan whose status response is
`failed`, the cycle issues no artifact-fetch call for that post, clears the
in-progress flag, and sets the status text to the terminal failure message
embedding the provider's error message, falling back to the default when
the provider gives none (or an empty message). -/
theorem C4_failed_no_fetch (env : PollEnv) (posts : List Post)
    (p : Post) (v : VideoOp)
    (hnd : (posts.map Post.id).Nodup) (hp : p ∈ posts)
    (hsel : videoScanFilter p = true)
    (hst : env.statusOf (jobId p) = .resolved v)
    (hfail : v.status = "failed") :
    (pollVideoStatuses env posts).posts.find? (fun q => q.id == p.id)
      = some { p with isGeneratingVideo := false,
                      videoGenerationStatus := some ("Failed: " ++ failedErrMsg v),
                      videoOperation := some v }
    ∧ resultCalls env p (.resolved v) = []
    ∧ (v.error = none → failedErrMsg v = "Video generation failed")
    ∧ (∀ m, v.error = some ⟨m⟩ → ¬ m = "" → failedErrMsg v = m) := by
  refine ⟨?_, ?_, ?_, ?_⟩
  · rw [poll_find_selected_resolved env posts p v hnd hp hsel hst,
        reconcileOk_failed env v p hfail]
  · simp only [resultCalls]
    rw [hfail]
    rfl
  · intro h
    unfold failedErrMsg
    rw [h]
  · intro m h hm
    unfold failedErrMsg
    rw [h]
    have : (m == "") = false := beq_eq_false_iff_ne.2 hm
    simp [this]

/-- Claim C5: for a post selected by the scan whose status response is
neither `completed` nor `failed` and reports numeric progress `prog`, the
cycle sets the status text to `Processing... prog%`, keeps
`isGeneratingVideo` true, and stores the updated job handle, so the post
(whose refreshed handle keeps a nonempty id) remains selected by the scan
filter. -/
theorem C5_processing_progress (env : PollEnv) (posts : List Post)
    (p : Post) (v : VideoOp) (prog : Nat)
    (hnd : (posts.map Post.id).Nodup) (hp : p ∈ posts)
    (hsel : videoScanFilter p = true)
    (hst : env.statusOf (jobId p) = .resolved v)
    (hncomp : ¬ v.status = "completed") (hnfail : ¬ v.status = "failed")
    (hprog : v.progress = some prog) (hid : ¬ v.id = "") :
    (pollVideoStatuses env posts).posts.find? (fun q => q.id == p.id)
      = some { p with videoGenerationStatus :=
                        some ("Processing... " ++ toString prog ++ "%"),
                      videoOperation := some v }
    ∧ ({ p with videoGenerationStatus :=
                  some ("Processing... " ++ toString prog ++ "%"),
                videoOperation := some v } : Post).isGeneratingVideo = true
    ∧ videoScanFilter { p with videoGenerationStatus :=
                                 some ("Processing... " ++ toString prog ++ "%"),
                               videoOperation := some v } = true := by
  have hgen : p.isGeneratingVideo = true := by
    simp only [videoScanFilter, Bool.and_eq_true] at hsel
    exact hsel.1.1.1
  refine ⟨?_, hgen, ?_⟩
  · rw [poll_find_selected_resolved env posts p v hnd hp hsel hst,
        reconcileOk_processing env v p hncomp hnfail, hprog]
    rfl
  · have h1 : (v.status == "completed") = false := beq_eq_false_iff_ne.2 hncomp
    have h2 : (v.status == "failed") = false := beq_eq_false_iff_ne.2 hnfail
    have h3 : (v.id == "") = false := beq_eq_false_iff_ne.2 hid
    simp [videoScanFilter, jobIdOpt, opStatus, optStrTruthy, hgen, h1, h2, h3]

lemma selected_eq_filter (q : Post) :
    selectedForVideoScan q = videoScanFilter q := by
  have hopt : ∀ a b : String, ((some a : Option String) == some b) = (a == b) :=
    fun _ _ => rfl
  unfold selectedForVideoScan videoScanFilter jobIdOpt opStatus optStrTruthy
  cases hop : q.videoOperation with
  | none => simp
  | some op => simp [hopt, Bool.and_assoc]

lemma isStatusReq_resultCalls_false (env : PollEnv) (q : Post)
    (res : StatusResult) :
    ∀ c ∈ resultCalls env q res, NetCall.isStatusReq c = false := by
  cases res with
  | rejected => intro c hc; cases hc
  | resolved v =>
      simp only [resultCalls]
      split
      · cases hf : env.fetchOf v.id with
        | none =>
            intro c hc
            rcases List.mem_cons.1 hc with rfl | hc2
            · rfl
            · cases hc2
        | some url =>
            intro c hc
            rcases List.mem_cons.1 hc with rfl | hc2
            · rfl
            · rcases List.mem_cons.1 hc2 with rfl | hc3
              · rfl
              · cases hc3
      · intro c hc; cases hc

/-- Claim C1 counterexample: take the one-post collection whose post is
flagged `isGeneratingVideo` and carries a job handle with status
`processing` — neither `completed` nor `failed` — but with an empty id.
Per the claim's selection wording the post is selected (the filtered set
has length 1), so the claim demands one status request; the scan issues
zero network calls. -/
theorem C1_counterexample :
    (List.filter claimSelectedC1
      [{ id := "p0", topic := "demo", status := "draft",
         isGeneratingVideo := true,
         videoOperation := some { id := "", status := "processing" } }]).length = 1
    ∧ (pollVideoStatuses ⟨fun _ => .rejected, fun _ => none⟩
        [{ id := "p0", topic := "demo", status := "draft",
           isGeneratingVideo := true,
           videoOperation := some { id := "", status := "processing" } }]).calls.length
        = 0 := by
  constructor
  · rfl
  · rfl

/-- Claim C1 (amended): one scan selects exactly the posts where
`isGeneratingVideo` is true, a job handle with nonempty id is present, and
the handle's status is neither `completed` nor `failed`; it issues exactly
one status request per selected post, carrying that post's job id, and it
issues zero network calls when the selected set is empty. -/
theorem C1_scan_requests (env : PollEnv) (posts : List Post) :
    (∀ q, selectedForVideoScan q = videoScanFilter q)
    ∧ (pollVideoStatuses env posts).calls.filter NetCall.isStatusReq
        = (posts.filter selectedForVideoScan).map
            (fun p => NetCall.statusReq (jobId p))
    ∧ (posts.filter selectedForVideoScan = [] →
        (pollVideoStatuses env posts).calls = []) := by
  have hfun : selectedForVideoScan = videoScanFilter := funext selected_eq_filter
  refine ⟨fun q => by rw [hfun], ?_, ?_⟩
  · rw [hfun]
    cases hE : (posts.filter videoScanFilter).isEmpty with
    | true =>
        rw [poll_idle env posts hE]
        rw [List.isEmpty_iff] at hE
        rw [hE]
        rfl
    | false =>
        rw [calls_eq_of_not_idle env posts hE, List.filter_append]
        have hA : ((posts.filter videoScanFilter).map
              (fun p => NetCall.statusReq (jobId p))).filter NetCall.isStatusReq
            = (posts.filter videoScanFilter).map
                (fun p => NetCall.statusReq (jobId p)) := by
          rw [List.filter_eq_self]
          intro c hc
          obtain ⟨q, _, rfl⟩ := List.mem_map.1 hc
          rfl
        have hB : (((scanResults env posts).map
              (fun pr => resultCalls env pr.1 pr.2)).flatten).filter
                NetCall.isStatusReq = [] := by
          rw [List.filter_eq_nil_iff]
          intro c hc
          obtain ⟨l', hl', hcl⟩ := List.mem_flatten.1 hc
          obtain ⟨pr, _, rfl⟩ := List.mem_map.1 hl'
          rw [isStatusReq_resultCalls_false env pr.1 pr.2 c hcl]
          exact Bool.false_ne_true
        rw [hA, hB, List.append_nil]
  · intro h
    rw [hfun] at h
    have hE : (posts.filter videoScanFilter).isEmpty = true := by
      rw [List.isEmpty_iff]
      exact h
    rw [poll_idle env posts hE]

lemma reconcileOk_congr (env env2 : PollEnv) (hfetch : env2.fetchOf = env.fetchOf)
    (v : VideoOp) (y : Post) : reconcileOk env v y = reconcileOk env2 v y := by
  unfold reconcileOk
  rw [hfetch]

lemma stepOne_congr (env env2 : PollEnv) (hfetch : env2.fetchOf = env.fetchOf)
    (pr : Post × StatusResult) (y : Post) :
    stepOne env pr y = stepOne env2 pr y := by
  obtain ⟨q, res⟩ := pr
  cases res with
  | rejected => rfl
  | resolved v =>
      simp only [stepOne]
      split
      · exact reconcileOk_congr env env2 hfetch v y
      · rfl

lemma stepOne_ne (env : PollEnv) (pr : Post × StatusResult) (y : Post)
    (h : ¬ y.id = pr.1.id) : stepOne env pr y = y := by
  obtain ⟨q, res⟩ := pr
  cases res with
  | rejected => rfl
  | resolved v => simp [stepOne, beq_eq_false_iff_ne.2 h]

lemma foldSteps_congr_on (env env2 : PollEnv)
    (hfetch : env2.fetchOf = env.fetchOf) (l : List Post) (y : Post)
    (h : ∀ r ∈ l, env2.statusOf (jobId r) = env.statusOf (jobId r) ∨ ¬ r.id = y.id) :
    foldSteps env (l.map (fun r => (r, env.statusOf (jobId r)))) y
      = foldSteps env2 (l.map (fun r => (r, env2.statusOf (jobId r)))) y := by
  induction l generalizing y with
  | nil => rfl
  | cons r l ih =>
      show foldSteps env (l.map _) (stepOne env (r, env.statusOf (jobId r)) y)
             = foldSteps env2 (l.map _) (stepOne env2 (r, env2.statusOf (jobId r)) y)
      have hstep : stepOne env (r, env.statusOf (jobId r)) y
                     = stepOne env2 (r, env2.statusOf (jobId r)) y := by
        rcases h r (List.mem_cons_self _ _) with hs | hne
        · rw [hs]
          exact stepOne_congr env env2 hfetch _ y
        · rw [stepOne_ne env _ y (fun e => hne e.symm),
              stepOne_ne env2 _ y (fun e => hne e.symm)]
      rw [hstep]
      refine ih (stepOne env2 (r, env2.statusOf (jobId r)) y) ?_
      intro r' hr'
      rcases h r' (List.mem_cons_of_mem _ hr') with hs | hne
      · exact Or.inl hs
      · refine Or.inr ?_
        rw [stepOne_id]
        exact hne

/-- Claim C8: when a selected post's status request rejects, the cycle
leaves that post unchanged (it stays flagged with its previous handle, so
the same job is retried next cycle), and the rejection does not alter any
other post's reconciliation: any environment agreeing with this one on
every other job id and on the fetch oracle reconciles every other post to
the same value. -/
theorem C8_rejected_frame (env env2 : PollEnv) (posts : List Post) (p : Post)
    (hnd : (posts.map Post.id).Nodup) (hp : p ∈ posts)
    (hsel : videoScanFilter p = true)
    (hrej : env.statusOf (jobId p) = .rejected)
    (hsame : ∀ s, ¬ s = jobId p → env2.statusOf s = env.statusOf s)
    (hfetch : env2.fetchOf = env.fetchOf)
    (hjob : ∀ q ∈ posts, videoScanFilter q = true → ¬ q.id = p.id →
              ¬ jobId q = jobId p) :
    (pollVideoStatuses env posts).posts.find? (fun r => r.id == p.id) = some p
    ∧ ∀ q ∈ posts, ¬ q.id = p.id →
        (pollVideoStatuses env posts).posts.find? (fun r => r.id == q.id)
          = (pollVideoStatuses env2 posts).posts.find? (fun r => r.id == q.id) := by
  constructor
  · rw [poll_find_selected env posts p hnd hp hsel, hrej]
    rfl
  · intro q hq hqp
    have hE := not_idle_of_mem posts p hp hsel
    rw [posts_eq_of_not_idle env posts hE, posts_eq_of_not_idle env2 posts hE]
    rw [find?_map_id_eq _ (foldSteps_id env _) hnd hq,
        find?_map_id_eq _ (foldSteps_id env2 _) hnd hq]
    congr 1
    simp only [scanResults]
    refine foldSteps_congr_on env env2 hfetch (posts.filter videoScanFilter) q ?_
    intro r hr
    by_cases hj : jobId r = jobId p
    · refine Or.inr ?_
      have hrsel : videoScanFilter r = true := (List.mem_filter.1 hr).2
      have hrmem : r ∈ posts := (List.mem_filter.1 hr).1
      by_cases hrp : r.id = p.id
      · rw [hrp]
        exact fun e => hqp e.symm
      · exact absurd hj (hjob r hrmem hrsel hrp)
    · exact Or.inl (hsame (jobId r) hj)

lemma duePost_iff (now : Int) (p : Post) :
    duePost now p = true ↔ claimDueC6 now p := by
  unfold duePost claimDueC6
  cases hs : p.scheduledAt with
  | none => simp
  | some t => simp [Bool.and_eq_true, beq_iff_eq]

/-- Claim C6: the scheduled-post scan at time `now` selects a post exactly
when its status is `scheduled` and it carries a `scheduledAt` timestamp at
or before `now`; a post scheduled strictly after `now` is never selected. -/
theorem C6_scheduled_selection (posts : List Post) (now : Int) (p : Post) :
    (p ∈ posts.filter (duePost now) ↔ p ∈ posts ∧ claimDueC6 now p)
    ∧ (∀ t, p.scheduledAt = some t → now < t →
        p ∉ posts.filter (duePost now)) := by
  constructor
  · rw [List.mem_filter]
    exact and_congr_right (fun _ => duePost_iff now p)
  · intro t ht hlt hmem
    have h := (List.mem_filter.1 hmem).2
    rw [duePost_iff] at h
    obtain ⟨_, t', ht', hle⟩ := h.imp_right id
    rw [ht] at ht'
    have he : t = t' := Option.some_inj.1 ht'
    omega

lemma foldl_publishStep_attempts (env : PublishEnv) (l : List Post)
    (acc : CycleOut) :
    (l.foldl (publishStep env) acc).attempts = acc.attempts ++ l.map Post.id := by
  induction l generalizing acc with
  | nil => simp
  | cons a l ih =>
      rw [List.foldl_cons, ih]
      show (acc.attempts ++ [a.id]) ++ l.map Post.id
             = acc.attempts ++ (a.id :: l.map Post.id)
      rw [List.append_assoc]
      rfl

lemma mem_notifs_foldl (env : PublishEnv) (l : List Post) (acc : CycleOut)
    (n : Notification) (hn : n ∈ acc.notifs) :
    n ∈ (l.foldl (publishStep env) acc).notifs := by
  induction l generalizing acc with
  | nil => exact hn
  | cons a l ih =>
      rw [List.foldl_cons]
      refine ih _ ?_
      show n ∈ acc.notifs ++ (publishPost env acc.posts a).2.1
      exact List.mem_append_left _ hn

lemma mem_notifs_foldl_of_mem (env : PublishEnv) (l : List Post) (acc : CycleOut)
    (p : Post) (hp : p ∈ l) (n : Notification)
    (hn : ∀ ps : List Post, n ∈ (publishPost env ps p).2.1) :
    n ∈ (l.foldl (publishStep env) acc).notifs := by
  induction l generalizing acc with
  | nil => cases hp
  | cons a l ih =>
      rw [List.foldl_cons]
      rcases List.mem_cons.1 hp with rfl | hp'
      · refine mem_notifs_foldl env l _ n ?_
        show n ∈ acc.notifs ++ (publishPost env acc.posts p).2.1
        exact List.mem_append_right _ (hn acc.posts)
      · exact ih _ hp'

lemma publishPost_error_notif (env : PublishEnv) (ps : List Post) (post : Post)
    (hv : (env.validate post).valid = true)
    (he : env.platformPublish post = .error ()) :
    (publishPost env ps post).2.1
      = [{ kind := "error", title := "Publishing Error",
           message := "Failed to publish post to platforms" }] := by
  simp [publishPost, hv, he]

/-- Claim C7: within one scheduled-publish batch the publish flow is
invoked once per due post, in order, whatever the collaborators do — no
per-post failure aborts the batch — and a post whose platform publish
throws still surfaces a "Publishing Error" notification while every other
due post remains in the attempt list. -/
theorem C7_batch_isolation (env : PublishEnv) (now : Int) (posts : List Post) :
    (checkScheduledPosts env now posts).attempts
        = (posts.filter (duePost now)).map Post.id
    ∧ (∀ p ∈ posts.filter (duePost now),
        (env.validate p).valid = true → env.platformPublish p = .error () →
        ({ kind := "error", title := "Publishing Error",
           message := "Failed to publish post to platforms",
           postId := none } : Notification)
          ∈ (checkScheduledPosts env now posts).notifs) := by
  constructor
  · unfold checkScheduledPosts
    rw [foldl_publishStep_attempts]
    rfl
  · intro p hp hv he
    unfold checkScheduledPosts
    refine mem_notifs_foldl_of_mem env _ _ p hp _ ?_
    intro ps
    rw [publishPost_error_notif env ps p hv he]
    exact List.mem_cons_self _ _

/-- Claim C9 counterexample: two runs of the publish flow on the same valid
post whose per-platform result lists differ only in the success flag of the
single result do not issue the same collaborator calls: the archive request
embeds the result list, so the archive bodies differ. -/
theorem C9_counterexample :
    (publishPost
       { validate := fun _ => { valid := true },
         platformPublish := fun _ => .ok [{ platform := "twitter", success := true }],
         archiveRejects := false, deleteOk := fun _ => true,
         loggedIn := true, workspaceId := "w" }
       [{ id := "p9", topic := "t9", status := "scheduled" }]
       { id := "p9", topic := "t9", status := "scheduled" }).2.2
    ≠ (publishPost
       { validate := fun _ => { valid := true },
         platformPublish := fun _ => .ok [{ platform := "twitter", success := false }],
         archiveRejects := false, deleteOk := fun _ => true,
         loggedIn := true, workspaceId := "w" }
       [{ id := "p9", topic := "t9", status := "scheduled" }]
       { id := "p9", topic := "t9", status := "scheduled" }).2.2 := by
  decide

/-- The identifying part of a per-platform result, with the success flag
stripped. -/
def stripSuccess (r : PlatformResult) : String × Option String × Option String :=
  (r.platform, r.url, r.error)

/-- A notification with its message text erased. -/
def eraseMessage (n : Notification) : Notification := { n with message := "" }

/-- A publish-flow call with the archive body's result payload erased. -/
def erasePlatformResults : PubCall → PubCall
  | .archive b => .archive { b with platformResults := [] }
  | c => c

lemma deletePostM_congr (env1 env2 : PublishEnv)
    (hlog : env1.loggedIn = env2.loggedIn)
    (hws : env1.workspaceId = env2.workspaceId)
    (hdel : env1.deleteOk = env2.deleteOk)
    (posts : List Post) (postId : String) :
    deletePostM env1 posts postId = deletePostM env2 posts postId := by
  unfold deletePostM
  rw [hlog, hws, hdel]

/-- Claim C9 (amended): for a post that passes validation, the per-platform
result list influences only the text of the success notification (the
success/total counts) and the `platformResults` payload embedded in the
archive request body: two runs whose result lists differ only in their
success flags remove the post identically and produce the same
notifications up to message text and the same calls up to the archive
payload. -/
theorem C9_results_influence (env1 env2 : PublishEnv) (posts : List Post)
    (post : Post) (rs1 rs2 : List PlatformResult)
    (hlog : env1.loggedIn = env2.loggedIn)
    (hws : env1.workspaceId = env2.workspaceId)
    (harch : env1.archiveRejects = env2.archiveRejects)
    (hdel : env1.deleteOk = env2.deleteOk)
    (hv1 : (env1.validate post).valid = true)
    (hv2 : (env2.validate post).valid = true)
    (hr1 : env1.platformPublish post = .ok rs1)
    (hr2 : env2.platformPublish post = .ok rs2)
    (_hflags : rs1.map stripSuccess = rs2.map stripSuccess) :
    (publishPost env1 posts post).1 = (publishPost env2 posts post).1
    ∧ (publishPost env1 posts post).2.1.map eraseMessage
        = (publishPost env2 posts post).2.1.map eraseMessage
    ∧ (publishPost env1 posts post).2.2.map erasePlatformResults
        = (publishPost env2 posts post).2.2.map erasePlatformResults := by
  have hD := deletePostM_congr env1 env2 hlog hws hdel posts post.id
  simp only [publishPost, hv1, hv2, hr1, hr2, Bool.not_true, Bool.false_eq_true,
    if_false, hlog, harch, hws, hD]
  cases hl : env2.loggedIn with
  | true =>
      cases ha : env2.archiveRejects with
      | true => simp [hl, ha, eraseMessage, erasePlatformResults]
      | false => simp [hl, ha, eraseMessage, erasePlatformResults]
  | false => simp [hl, eraseMessage, erasePlatformResults]

/-- Claim C10: a post failing pre-publish validation makes the publish flow
emit exactly one error notification and return with the collection
untouched and no collaborator call (no publish, archive or delete); the
unchanged post is therefore still selected by the scheduled scan whenever
it is due. -/
theorem C10_validation_failure (env : PublishEnv) (posts : List Post)
    (post : Post) (now : Int)
    (hv : (env.validate post).valid = false) :
    publishPost env posts post
      = (posts, [{ kind := "error", title := "Validation Error",
                   message := joinedErrors (env.validate post), postId := none }], [])
    ∧ (post ∈ posts → duePost now post = true →
        post ∈ (publishPost env posts post).1.filter (duePost now)) := by
  have h1 : publishPost env posts post
      = (posts, [{ kind := "error", title := "Validation Error",
                   message := joinedErrors (env.validate post), postId := none }], []) := by
    simp [publishPost, hv]
  refine ⟨h1, ?_⟩
  intro hp hd
  rw [h1]
  exact List.mem_filter.2 ⟨hp, hd⟩

/-- A post with an outstanding video job, used to evaluate the theorems on
concrete input. -/
def wVideoPost : Post :=
  { id := "p1", topic := "launch", status := "draft", isGeneratingVideo := true,
    videoOperation := some { id := "v1", status := "processing" } }

/-- A poll environment in which every status request rejects. -/
def wRejEnv : PollEnv :=
  { statusOf := fun _ => .rejected, fetchOf := fun _ => none }

/-- Completed job handle returned by the status oracle below. -/
def wVideoDone : VideoOp := { id := "v1", status := "completed" }

/-- Poll environment: status `completed`, artifact fetch succeeds. -/
def wEnvC2 : PollEnv :=
  { statusOf := fun _ => .resolved wVideoDone,
    fetchOf := fun _ => some "https://cdn/v1.mp4" }

/-- Poll environment: status `completed`, artifact fetch fails. -/
def wEnvC3 : PollEnv :=
  { statusOf := fun _ => .resolved wVideoDone, fetchOf := fun _ => none }

/-- Failed job handle carrying a provider error message. -/
def wVideoFailed : VideoOp :=
  { id := "v1", status := "failed", error := some { message := "quota exceeded" } }

/-- Poll environment: status `failed`. -/
def wEnvC4 : PollEnv :=
  { statusOf := fun _ => .resolved wVideoFailed, fetchOf := fun _ => none }

/-- Processing job handle reporting 40 percent progress. -/
def wVideoProg : VideoOp :=
  { id := "v1", status := "processing", progress := some 40 }

/-- Poll environment: status still processing. -/
def wEnvC5 : PollEnv :=
  { statusOf := fun _ => .resolved wVideoProg, fetchOf := fun _ => none }

/-- A due scheduled post (`scheduledAt` 100). -/
def wSchedPost : Post :=
  { id := "s1", topic := "sched", status := "scheduled", scheduledAt := some 100 }

/-- Publish environment whose platform publish throws. -/
def wEnvC7 : PublishEnv :=
  { validate := fun _ => { valid := true },
    platformPublish := fun _ => .error (),
    archiveRejects := false, deleteOk := fun _ => true,
    loggedIn := true, workspaceId := "w" }

/-- Witness for C1: at the one-post collection with a live job the scan's
call trace filtered to status requests is exactly one request carrying the
job id, and at the empty collection the scan issues no calls. -/
theorem C1_scan_requests_witness :
    (pollVideoStatuses wRejEnv [wVideoPost]).calls.filter NetCall.isStatusReq
      = [NetCall.statusReq "v1"]
    ∧ (pollVideoStatuses wRejEnv ([] : List Post)).calls = [] := by
  have h1 := C1_scan_requests wRejEnv [wVideoPost]
  have h2 := C1_scan_requests wRejEnv ([] : List Post)
  constructor
  · rw [h1.2.1]
    rfl
  · exact h2.2.2 rfl

/-- Witness for C2 at a concrete collection, environment and fetched URL. -/
theorem C2_witness :
    (pollVideoStatuses wEnvC2 [wVideoPost]).posts.find?
        (fun q => q.id == wVideoPost.id)
      = some { wVideoPost with generatedVideoUrl := some "https://cdn/v1.mp4",
                               isGeneratingVideo := false,
                               videoGenerationStatus := some "Completed!",
                               videoOperation := some wVideoDone }
    ∧ (pollVideoStatuses wEnvC2 [wVideoPost]).notifs.countP
        (fun n => n.kind == "video_complete" && n.postId == some wVideoPost.id)
        = 1 :=
  C2_completed_fetch_success wEnvC2 [wVideoPost] wVideoPost wVideoDone
    "https://cdn/v1.mp4" (by decide) (by decide) (by decide) rfl rfl rfl

/-- Witness for C3 at a concrete collection and environment. -/
theorem C3_witness :
    (pollVideoStatuses wEnvC3 [wVideoPost]).posts.find?
        (fun q => q.id == wVideoPost.id)
      = some { wVideoPost with isGeneratingVideo := false,
                               videoGenerationStatus := some "Failed." }
    ∧ videoScanFilter { wVideoPost with isGeneratingVideo := false,
                                        videoGenerationStatus := some "Failed." }
        = false :=
  C3_completed_fetch_failure wEnvC3 [wVideoPost] wVideoPost wVideoDone
    (by decide) (by decide) (by decide) rfl rfl rfl

/-- Witness for C4 at a concrete collection and environment: the failure
text embeds the provider's message and no fetch call is produced. -/
theorem C4_witness :
    (pollVideoStatuses wEnvC4 [wVideoPost]).posts.find?
        (fun q => q.id == wVideoPost.id)
      = some { wVideoPost with isGeneratingVideo := false,
                               videoGenerationStatus :=
                                 some "Failed: quota exceeded",
                               videoOperation := some wVideoFailed }
    ∧ resultCalls wEnvC4 wVideoPost (.resolved wVideoFailed) = [] := by
  have h := C4_failed_no_fetch wEnvC4 [wVideoPost] wVideoPost wVideoFailed
    (by decide) (by decide) (by decide) rfl rfl
  refine ⟨?_, h.2.1⟩
  rw [h.1]
  rfl

/-- Witness for C5 at a concrete collection and environment reporting
40 percent progress. -/
theorem C5_witness :
    (pollVideoStatuses wEnvC5 [wVideoPost]).posts.find?
        (fun q => q.id == wVideoPost.id)
      = some { wVideoPost with videoGenerationStatus :=
                                 some "Processing... 40%",
                               videoOperation := some wVideoProg }
    ∧ videoScanFilter { wVideoPost with videoGenerationStatus :=
                                          some "Processing... 40%",
                                        videoOperation := some wVideoProg }
        = true := by
  have h := C5_processing_progress wEnvC5 [wVideoPost] wVideoPost wVideoProg 40
    (by decide) (by decide) (by decide) rfl (by decide) (by decide) rfl (by decide)
  exact ⟨h.1, h.2.2⟩

/-- Witness for C6: the post scheduled at 100 is selected at time 200 and
excluded at time 50. -/
theorem C6_witness :
    wSchedPost ∈ List.filter (duePost 200) [wSchedPost]
    ∧ wSchedPost ∉ List.filter (duePost 50) [wSchedPost] := by
  have h1 := C6_scheduled_selection [wSchedPost] 200 wSchedPost
  have h2 := C6_scheduled_selection [wSchedPost] 50 wSchedPost
  constructor
  · exact h1.1.2 ⟨List.mem_cons_self _ _, rfl, 100, rfl, by norm_num⟩
  · exact h2.2 100 rfl (by norm_num)

/-- Witness for C7: one due post whose platform publish throws is still
attempted and surfaces the error notification. -/
theorem C7_witness :
    (checkScheduledPosts wEnvC7 200 [wSchedPost]).attempts = ["s1"]
    ∧ ({ kind := "error", title := "Publishing Error",
         message := "Failed to publish post to platforms",
         postId := none } : Notification)
        ∈ (checkScheduledPosts wEnvC7 200 [wSchedPost]).notifs := by
  have h := C7_batch_isolation wEnvC7 200 [wSchedPost]
  constructor
  · rw [h.1]
    rfl
  · exact h.2 wSchedPost (by decide) rfl rfl

/-- Witness for C8: with every status request rejecting, the single flagged
post is left unchanged by the cycle. -/
theorem C8_witness :
    (pollVideoStatuses wRejEnv [wVideoPost]).posts.find?
        (fun r => r.id == wVideoPost.id) = some wVideoPost := by
  have h := C8_rejected_frame wRejEnv wRejEnv [wVideoPost] wVideoPost
    (by decide) (by decide) (by decide) rfl (fun _ _ => rfl) rfl
    (fun q hq _ hne =>
      absurd (congrArg Post.id (List.mem_singleton.1 hq)) hne)
  exact h.1

/-- Result lists for the C9 witness, differing only in the success flag. -/
def wResultsA : List PlatformResult := [{ platform := "twitter", success := true }]

/-- See `wResultsA`. -/
def wResultsB : List PlatformResult := [{ platform := "twitter", success := false }]

/-- Publish environment returning `wResultsA`. -/
def wEnvC9a : PublishEnv :=
  { validate := fun _ => { valid := true },
    platformPublish := fun _ => .ok wResultsA,
    archiveRejects := false, deleteOk := fun _ => true,
    loggedIn := true, workspaceId := "w" }

/-- Publish environment returning `wResultsB`. -/
def wEnvC9b : PublishEnv :=
  { validate := fun _ => { valid := true },
    platformPublish := fun _ => .ok wResultsB,
    archiveRejects := false, deleteOk := fun _ => true,
    loggedIn := true, workspaceId := "w" }

/-- Witness for C9 (amended) at concrete environments whose result lists
differ only in the success flag. -/
theorem C9_witness :
    (publishPost wEnvC9a [wSchedPost] wSchedPost).1
        = (publishPost wEnvC9b [wSchedPost] wSchedPost).1
    ∧ (publishPost wEnvC9a [wSchedPost] wSchedPost).2.1.map eraseMessage
        = (publishPost wEnvC9b [wSchedPost] wSchedPost).2.1.map eraseMessage
    ∧ (publishPost wEnvC9a [wSchedPost] wSchedPost).2.2.map erasePlatformResults
        = (publishPost wEnvC9b [wSchedPost] wSchedPost).2.2.map erasePlatformResults :=
  C9_results_influence wEnvC9a wEnvC9b [wSchedPost] wSchedPost wResultsA wResultsB
    rfl rfl rfl rfl rfl rfl rfl rfl rfl

/-- Publish environment whose validation fails with one error. -/
def wEnvC10 : PublishEnv :=
  { validate := fun _ => { valid := false, errors := some ["missing content"] },
    platformPublish := fun _ => .ok [], archiveRejects := false,
    deleteOk := fun _ => true, loggedIn := true, workspaceId := "w" }

/-- Witness for C10: the invalid post is untouched, one validation error
notification is emitted, no collaborator call is issued, and the post is
still selected by the scheduled scan at time 200. -/
theorem C10_witness :
    publishPost wEnvC10 [wSchedPost] wSchedPost
      = ([wSchedPost], [{ kind := "error", title := "Validation Error",
                          message := "missing content", postId := none }], [])
    ∧ wSchedPost
        ∈ (publishPost wEnvC10 [wSchedPost] wSchedPost).1.filter (duePost 200) := by
  have h := C10_validation_failure wEnvC10 [wSchedPost] wSchedPost 200 rfl
  constructor
  · rw [h.1]
    rfl
  · exact h.2 (List.mem_cons_self _ _) (by decide)

end SocialOS
